import Mathlib

/-!
Verification of the live chain-event monitor of this repository.

The monitor lives in three Go sources:
* `examples/06-subscribe/advanced_block_monitor.go` — the full monitor
  (`MonitorStats`, `BlockInfo`, `AlertRule`, `processBlock`, `updateStats`,
  `addToHistory`, `calculateAverageGasPrice`, `checkAlerts`, `Start`, `Stop`,
  `generateFinalReport`);
* `examples/06-subscribe/block_subscribe.go` — the basic subscribe variant
  (`BlockStats`, `subscribeNewHeads`, `processNewHeader`);
* the poll-mode variant (block polling example) — tick loop and catch-up.

Conventions of the embedding:
* Go `uint64` fields are `Nat`; where the source converts a `uint64` through
  `int64` (`big.NewInt(int64(x))`, `time.Unix(int64(x), 0)`) the wrap-around
  of that conversion is modelled exactly by `toInt64`.
* `time.Time` instants carry whole seconds (`time.Unix(int64(header.Time), 0)`);
  `time.Duration` values are `Int` nanoseconds, and the saturation of
  `time.Time.Sub` to `[-2^63, 2^63 - 1]` ns is modelled exactly by `timeSub`.
  Theorems that depend on exactness carry an explicit no-saturation
  hypothesis (deltas below ±9223372036 s, about ±292 years).
* `big.Int` totals are `Int`/`Nat` (arbitrary precision, like the source).
* I/O (log lines, printf) is dropped; the data every printout is built from
  is retained (e.g. `FinalReport` holds the values `generateFinalReport`
  prints).
* A fetch (`client.BlockByHash` / `BlockByNumber`) is an `Option RawBlock`
  supplied with the notification: `none` is a failed fetch.
-/

namespace DappMonitor

/-- A sampled transaction as the monitor reads it: `tx.GasPrice()` may be
nil (`none`). -/
structure Tx where
  GasPrice : Option Nat
deriving DecidableEq, Repr

/-- The data of a fetched block that the monitor touches (header fields and
the transaction list). -/
structure RawBlock where
  Number : Nat
  Hash : String
  Time : Nat
  Txs : List Tx
  GasUsed : Nat
  GasLimit : Nat
  Coinbase : String
deriving DecidableEq, Repr

/-- Go's `int64(x)` conversion of a `uint64` value `x`. -/
def toInt64 (n : Nat) : Int :=
  if n < 2 ^ 63 then (n : Int) else (n : Int) - 2 ^ 64

/-- Go's `time.Time.Sub` applied to two `time.Unix(sec, 0)` instants with
second values `t` and `u` (as int64 seconds): the exact delta in
nanoseconds when it fits a `time.Duration` (int64 ns), else saturated to
`maxDuration = 2^63 - 1` ns or `minDuration = -2^63` ns. -/
def timeSub (t u : Int) : Int :=
  if (t - u) * 1000000000 > 2 ^ 63 - 1 then 2 ^ 63 - 1
  else if (t - u) * 1000000000 < -(2 ^ 63) then -(2 ^ 63)
  else (t - u) * 1000000000

/-- `BlockInfo` of advanced_block_monitor.go. `BlockTime` is the derived
inter-block interval (a `time.Duration`, possibly zero for the first
record), in nanoseconds. -/
structure BlockInfo where
  Number : Nat
  Hash : String
  Timestamp : Nat
  TxCount : Nat
  GasUsed : Nat
  GasLimit : Nat
  GasPrice : Nat
  BlockTime : Int
  Miner : String
deriving DecidableEq, Repr

/-- `MonitorStats` of advanced_block_monitor.go. `LastBlockTime` is `none`
while the Go `time.Time` is its zero value (no block processed yet);
`time.Unix(t, 0)` is never the zero `time.Time`, so once a block is
processed it is `some` of that block's header time. -/
structure MonitorStats where
  StartTime : Int
  BlockCount : Nat
  TotalTxs : Nat
  TotalGasUsed : Int
  MaxTxsPerBlock : Nat
  MinTxsPerBlock : Nat
  MaxGasUsage : Nat
  MinGasUsage : Nat
  AverageBlockTime : Int
  LastBlockTime : Option Nat
deriving DecidableEq, Repr

/-- The stats a fresh monitor starts with (`NewBlockMonitor`):
`MinTxsPerBlock: 999999`, `MinGasUsage: ^uint64(0)`, zero counters. -/
def NewMonitorStats (start : Int) : MonitorStats where
  StartTime := start
  BlockCount := 0
  TotalTxs := 0
  TotalGasUsed := 0
  MaxTxsPerBlock := 0
  MinTxsPerBlock := 999999
  MaxGasUsage := 0
  MinGasUsage := 2 ^ 64 - 1
  AverageBlockTime := 0
  LastBlockTime := none

/-- `calculateAverageGasPrice`: zero for an empty transaction list; else the
`big.Int` quotient of the summed non-nil gas prices by their count, and zero
again if every sampled gas price was nil. -/
def calculateAverageGasPrice (txs : List Tx) : Nat :=
  if txs.length = 0 then 0
  else
    let prices := txs.filterMap Tx.GasPrice
    if prices.length = 0 then 0
    else prices.sum / prices.length

/-- The body of `addToHistory`, with the capacity (`100` in the source) as a
parameter: append, then drop the oldest entry when the capacity is
exceeded. -/
def historyAdd {α : Type} (cap : Nat) (hist : List α) (b : α) : List α :=
  if cap < (hist ++ [b]).length then (hist ++ [b]).drop 1 else hist ++ [b]

/-- `addToHistory` of advanced_block_monitor.go: capacity hard-wired to
100 (`if len(m.blockHistory) > 100 { m.blockHistory = m.blockHistory[1:] }`). -/
def addToHistory (hist : List BlockInfo) (b : BlockInfo) : List BlockInfo :=
  historyAdd 100 hist b

/-- Inserting a list of records into an initially empty window of capacity
`cap`, one `addToHistory` step per record. -/
def runHistory (cap : Nat) (recs : List BlockInfo) : List BlockInfo :=
  recs.foldl (historyAdd cap) []

/-- The metrics extraction done inline in `processBlock`: build the
`BlockInfo` of a fetched block from the header fields, the previous
`LastBlockTime` (for the interval) and the average gas price. -/
def extractRecord (stats : MonitorStats) (raw : RawBlock) : BlockInfo where
  Number := raw.Number
  Hash := raw.Hash
  Timestamp := raw.Time
  TxCount := raw.Txs.length
  GasUsed := raw.GasUsed
  GasLimit := raw.GasLimit
  GasPrice := calculateAverageGasPrice raw.Txs
  BlockTime :=
    match stats.LastBlockTime with
    | none => 0
    | some prev => timeSub (toInt64 raw.Time) (toInt64 prev)
  Miner := raw.Coinbase

/-- `updateStats`: bump the cumulative counters, update the extremes by
comparison, and recompute `AverageBlockTime` from the positive intervals of
the (pre-insertion) history when `BlockCount > 1` and the history is
non-empty and holds a positive interval. -/
def updateStats (stats : MonitorStats) (history : List BlockInfo) (b : BlockInfo) : MonitorStats :=
  let s : MonitorStats :=
    { stats with
      BlockCount := stats.BlockCount + 1
      TotalTxs := stats.TotalTxs + b.TxCount
      TotalGasUsed := stats.TotalGasUsed + toInt64 b.GasUsed
      MaxTxsPerBlock := if stats.MaxTxsPerBlock < b.TxCount then b.TxCount else stats.MaxTxsPerBlock
      MinTxsPerBlock := if b.TxCount < stats.MinTxsPerBlock then b.TxCount else stats.MinTxsPerBlock
      MaxGasUsage := if stats.MaxGasUsage < b.GasUsed then b.GasUsed else stats.MaxGasUsage
      MinGasUsage := if b.GasUsed < stats.MinGasUsage then b.GasUsed else stats.MinGasUsage }
  let pos := history.filter (fun p => 0 < p.BlockTime)
  let avg :=
    if 1 < s.BlockCount ∧ 0 < history.length ∧ 0 < pos.length then
      (pos.map BlockInfo.BlockTime).sum / (pos.length : Int)
    else s.AverageBlockTime
  { s with AverageBlockTime := avg }

/-- The mutable state `processBlock` operates on: the session stats and the
rolling block history. -/
structure MonState where
  stats : MonitorStats
  history : List BlockInfo
deriving DecidableEq, Repr

/-- The state of a freshly constructed monitor (`NewBlockMonitor`): initial
stats, empty history. -/
def initState (start : Int) : MonState where
  stats := NewMonitorStats start
  history := []

/-- `processBlock` on one notification: a failed full-block fetch (`none`)
is logged and the state is untouched; on success the record is extracted
(interval against the old `LastBlockTime`), `LastBlockTime` is set, the
stats are updated against the pre-insertion history, and the record is
appended to the history. -/
def processBlock (st : MonState) (fetched : Option RawBlock) : MonState :=
  match fetched with
  | none => st
  | some raw =>
    let b := extractRecord st.stats raw
    let stats1 := { st.stats with LastBlockTime := some raw.Time }
    { stats := updateStats stats1 st.history b
      history := addToHistory st.history b }

/-- A whole monitoring session of the advanced monitor: fold `processBlock`
over the fetch outcome of each notification, starting from a fresh
monitor. -/
def runSession (start : Int) (events : List (Option RawBlock)) : MonState :=
  events.foldl processBlock (initState start)

/-- `AlertRule` of advanced_block_monitor.go: a name, a pure predicate and
a pure message formatter over the record and the running stats. -/
structure AlertRule where
  Name : String
  Condition : BlockInfo → MonitorStats → Bool
  Message : BlockInfo → MonitorStats → String

/-- `checkAlerts`: walk the configured rules in list order and emit the
message of every rule whose condition holds; no short-circuiting, no state
change. -/
def checkAlerts (rules : List AlertRule) (b : BlockInfo) (stats : MonitorStats) : List String :=
  rules.foldl (fun out r => if r.Condition b stats then out ++ [r.Message b stats] else out) []

/-- The "high transaction volume" rule of `SetupAlertRules`
(`block.TxCount > 200`). -/
def ruleHighTxVolume : AlertRule where
  Name := "high tx volume"
  Condition := fun b _ => decide (200 < b.TxCount)
  Message := fun b _ => toString b.Number ++ " high tx volume"

/-- The "empty block" rule of `SetupAlertRules` (`block.TxCount == 0`). -/
def ruleEmptyBlock : AlertRule where
  Name := "empty block"
  Condition := fun b _ => decide (b.TxCount = 0)
  Message := fun b _ => toString b.Number ++ " empty"

/-- The data `generateFinalReport` prints: the elapsed duration and the
session totals read from `MonitorStats` at the moment of the call. -/
structure FinalReport where
  duration : Int
  BlockCount : Nat
  TotalTxs : Nat
  AverageBlockTime : Int
  TotalGasUsed : Int
deriving DecidableEq, Repr

/-- `generateFinalReport` evaluated at wall-clock time `now`
(`duration := time.Since(m.stats.StartTime)`). -/
def generateFinalReport (now : Int) (stats : MonitorStats) : FinalReport where
  duration := now - stats.StartTime
  BlockCount := stats.BlockCount
  TotalTxs := stats.TotalTxs
  AverageBlockTime := stats.AverageBlockTime
  TotalGasUsed := stats.TotalGasUsed

/-- The lifecycle-relevant state of a `BlockMonitor`: whether the context
has been cancelled, the monitor state, and the final reports emitted so
far. -/
structure LifecycleState where
  cancelled : Bool
  st : MonState
  reports : List FinalReport
deriving DecidableEq, Repr

/-- `Stop()` at wall-clock time `now`: `m.cancel()` (idempotent, never
panics) followed unconditionally by `m.generateFinalReport()` — there is no
once-guard in the source. -/
def Stop (now : Int) (m : LifecycleState) : LifecycleState where
  cancelled := true
  st := m.st
  reports := m.reports ++ [generateFinalReport now m.st.stats]

/-- A monitor that has produced nothing yet, for concrete evaluations. -/
def monitor0 : LifecycleState where
  cancelled := false
  st := initState 0
  reports := []

/-- `BlockStats` of block_subscribe.go (`LastBlock` kept as the header's
block number and time). -/
structure BlockStats where
  StartTime : Int
  BlockCount : Nat
  TotalTxs : Nat
  TotalGasUsed : Nat
  LastBlock : Option (Nat × Nat)
deriving DecidableEq, Repr

/-- Fresh `BlockStats` as built in `main` of block_subscribe.go. -/
def newBlockStats (start : Int) : BlockStats where
  StartTime := start
  BlockCount := 0
  TotalTxs := 0
  TotalGasUsed := 0
  LastBlock := none

/-- `processNewHeader` of block_subscribe.go on one notification: the
counter `BlockCount` and `LastBlock` are updated BEFORE the full-block
fetch; a failed fetch (`none`) returns after that, so only `analyzeBlock`
(the `TotalTxs`/`TotalGasUsed` fold, via `SetUint64`, no `int64` wrap) is
skipped. The event carries the header (number, time) and the fetch
outcome. -/
def processNewHeader (stats : BlockStats) (ev : (Nat × Nat) × Option RawBlock) : BlockStats :=
  let s1 := { stats with BlockCount := stats.BlockCount + 1, LastBlock := some ev.1 }
  match ev.2 with
  | none => s1
  | some blk =>
    { s1 with
      TotalTxs := s1.TotalTxs + blk.Txs.length
      TotalGasUsed := s1.TotalGasUsed + blk.GasUsed }

/-- A session of the basic subscribe variant: fold `processNewHeader` over
the received headers and their fetch outcomes. -/
def subscribeSession (start : Int) (evts : List ((Nat × Nat) × Option RawBlock)) : BlockStats :=
  evts.foldl processNewHeader (newBlockStats start)

/-- Events a subscription loop can see: a transport error from `sub.Err()`,
a delivered header, or context cancellation. -/
inductive SubEvent where
  | err : SubEvent
  | header : Nat → SubEvent
  | ctxDone : SubEvent
deriving DecidableEq, Repr

/-- Status of the logical monitoring process, with the number of reconnect
attempts made so far. -/
inductive ProcStatus where
  | active : Nat → ProcStatus
  | finished : Nat → ProcStatus
deriving DecidableEq, Repr

/-- One `select` round of `subscribeNewHeads` (block_subscribe.go): on
`sub.Err()` it sleeps 5s and respawns itself with `go subscribeNewHeads(...)`
— the logical process stays active and the retry counter grows, with no
bound checked; on `ctx.Done()` it returns. -/
def subscribeStep : ProcStatus → SubEvent → ProcStatus
  | .active r, .err => .active (r + 1)
  | .active r, .ctxDone => .finished r
  | .active r, .header _ => .active r
  | .finished r, _ => .finished r

/-- The subscribe loop of block_subscribe.go run over a list of events. -/
def subscribeRun (evts : List SubEvent) : ProcStatus :=
  evts.foldl subscribeStep (.active 0)

/-- One `select` round of `Start` (advanced_block_monitor.go): on
`sub.Err()` it logs and returns — immediate termination, zero reconnect
attempts; on `ctx.Done()` it returns. -/
def startStep : ProcStatus → SubEvent → ProcStatus
  | .active r, .err => .finished r
  | .active r, .ctxDone => .finished r
  | .active r, .header _ => .active r
  | .finished r, _ => .finished r

/-- The `Start` loop of advanced_block_monitor.go run over a list of
events. -/
def startRun (evts : List SubEvent) : ProcStatus :=
  evts.foldl startStep (.active 0)

/-- One tick of the poll-mode monitor: query the current block number,
and when it exceeds the last-seen number process every missed block from
`lastSeen+1` up to `current` (ascending), then set lastSeen to current
(`for blockNum := lastBlockNumber + 1; blockNum <= currentBlock; blockNum++`).
Returns the processed block numbers in processing order and the new
last-seen number. -/
def pollTick (lastSeen current : Nat) : List Nat × Nat :=
  if lastSeen < current then
    (List.range' (lastSeen + 1) (current - lastSeen), current)
  else ([], lastSeen)

/-- A concrete `BlockInfo` carrying just an identifying number, for the
window scenarios. -/
def recAt (n : Nat) : BlockInfo where
  Number := n
  Hash := ""
  Timestamp := 0
  TxCount := 0
  GasUsed := 0
  GasLimit := 0
  GasPrice := 0
  BlockTime := 0
  Miner := ""

/-- A concrete `RawBlock` with a number and a header time, no
transactions. -/
def rawAt (n t : Nat) : RawBlock where
  Number := n
  Hash := ""
  Time := t
  Txs := []
  GasUsed := 0
  GasLimit := 0
  Coinbase := ""

/-- A monitor state that has already processed a block at header time 50,
for concrete evaluations of the interval computation. -/
def stPrev : MonState where
  stats := { NewMonitorStats 0 with LastBlockTime := some 50 }
  history := []

/-- A one-notification session for concrete evaluations. -/
def evts1 : List (Option RawBlock) := [some (rawAt 1 10)]

end DappMonitor

namespace DappMonitor

/-! ## Helper lemmas -/

theorem historyAdd_length_le {α : Type} (cap : Nat) (hist : List α) (b : α)
    (h : hist.length ≤ cap) : (historyAdd cap hist b).length ≤ cap := by
  unfold historyAdd
  split
  · simp
    omega
  · rename_i hc
    simp at hc ⊢
    omega

theorem foldl_historyAdd_eq {α : Type} (cap : Nat) :
    ∀ (recs hist : List α), hist.length ≤ cap →
      recs.foldl (historyAdd cap) hist = (hist ++ recs).drop ((hist ++ recs).length - cap)
  | [], hist, h => by
    simp [Nat.sub_eq_zero_of_le, h]
  | r :: rs, hist, h => by
    rw [List.foldl_cons]
    by_cases hlen : cap < (hist ++ [r]).length
    · have hcap : hist.length = cap := by
        simp at hlen; omega
      have hstep : historyAdd cap hist r = (hist ++ [r]).drop 1 := by
        unfold historyAdd
        exact if_pos hlen
      have hlen1 : ((hist ++ [r]).drop 1).length ≤ cap := by
        simp; omega
      rw [hstep, foldl_historyAdd_eq cap rs _ hlen1]
      have e1 : ((hist ++ [r]).drop 1 ++ rs).length - cap = rs.length := by
        simp; omega
      have e2 : (hist ++ r :: rs).length - cap = rs.length + 1 := by
        simp; omega
      rw [e1, e2]
      have e3 : hist ++ r :: rs = (hist ++ [r]) ++ rs := by simp
      rw [e3]
      have e4 : (((hist ++ [r]) ++ rs).drop 1).drop rs.length
          = ((hist ++ [r]) ++ rs).drop (rs.length + 1) := by
        rw [List.drop_drop, Nat.add_comm]
      rw [← e4]
      have e5 : ((hist ++ [r]) ++ rs).drop 1 = (hist ++ [r]).drop 1 ++ rs :=
        List.drop_append_of_le_length (by simp)
      rw [e5]
    · have hstep : historyAdd cap hist r = hist ++ [r] := by
        unfold historyAdd
        exact if_neg hlen
      have hlen1 : (hist ++ [r]).length ≤ cap := by
        simp at hlen ⊢; omega
      rw [hstep, foldl_historyAdd_eq cap rs _ hlen1]
      have e3 : hist ++ r :: rs = (hist ++ [r]) ++ rs := by simp
      rw [e3]

theorem runHistory_eq_drop (cap : Nat) (recs : List BlockInfo) :
    runHistory cap recs = recs.drop (recs.length - cap) := by
  unfold runHistory
  have := foldl_historyAdd_eq cap recs [] (by simp)
  simpa using this

/-! ## Claim theorems -/

/-- Claim C9: `calculateAverageGasPrice` over an empty transaction list is
zero, and likewise when no sampled transaction carries a gas price — the
computation returns 0 instead of failing or dividing by zero. -/
theorem averageGasPrice_zero_cases (txs : List Tx) (h : ∀ t ∈ txs, t.GasPrice = none) :
    calculateAverageGasPrice [] = 0 ∧ calculateAverageGasPrice txs = 0 := by
  constructor
  · rfl
  · unfold calculateAverageGasPrice
    rcases txs with _ | ⟨t, ts⟩
    · rfl
    · rw [if_neg (by simp)]
      have hnil : (t :: ts).filterMap Tx.GasPrice = [] := by
        rw [List.filterMap_eq_nil_iff]
        exact h
      simp [hnil]

/-- Witness for C9 at a concrete two-transaction list with nil gas
prices. -/
theorem averageGasPrice_zero_cases_witness :
    (∀ t ∈ [Tx.mk none, Tx.mk none], t.GasPrice = none) ∧
      (calculateAverageGasPrice [] = 0 ∧ calculateAverageGasPrice [Tx.mk none, Tx.mk none] = 0) :=
  ⟨by decide, averageGasPrice_zero_cases [Tx.mk none, Tx.mk none] (by decide)⟩

/-- Claim C2: starting from an empty window, the history never exceeds the
capacity; after inserting `cap + K` records the window is exactly the last
`cap` of them in arrival order (the `drop K` suffix); `addToHistory` is the
capacity-100 instance of this mechanism; and with capacity 3, inserting
records #1..#5 leaves `[#3, #4, #5]`. -/
theorem historyWindow_bounded_fifo (cap K : Nat) (recs other : List BlockInfo)
    (h : recs.length = cap + K) :
    (runHistory cap other).length ≤ cap
    ∧ runHistory cap recs = recs.drop K
    ∧ (∀ hist b, addToHistory hist b = historyAdd 100 hist b)
    ∧ runHistory 3 [recAt 1, recAt 2, recAt 3, recAt 4, recAt 5]
        = [recAt 3, recAt 4, recAt 5] := by
  refine ⟨?_, ?_, fun _ _ => rfl, by decide⟩
  · rw [runHistory_eq_drop]
    simp only [List.length_drop]
    omega
  · rw [runHistory_eq_drop]
    congr 1
    omega

/-- Witness for C2 at capacity 3 with the five scenario records. -/
theorem historyWindow_bounded_fifo_witness :
    ([recAt 1, recAt 2, recAt 3, recAt 4, recAt 5].length = 3 + 2)
    ∧ ((runHistory 3 [recAt 1, recAt 2, recAt 3, recAt 4, recAt 5]).length ≤ 3
      ∧ runHistory 3 [recAt 1, recAt 2, recAt 3, recAt 4, recAt 5]
          = [recAt 1, recAt 2, recAt 3, recAt 4, recAt 5].drop 2
      ∧ (∀ hist b, addToHistory hist b = historyAdd 100 hist b)
      ∧ runHistory 3 [recAt 1, recAt 2, recAt 3, recAt 4, recAt 5]
          = [recAt 3, recAt 4, recAt 5]) :=
  ⟨by decide,
    historyWindow_bounded_fifo 3 2 [recAt 1, recAt 2, recAt 3, recAt 4, recAt 5]
      [recAt 1, recAt 2, recAt 3, recAt 4, recAt 5] (by decide)⟩

theorem processBlock_some_BlockCount (st : MonState) (raw : RawBlock) :
    (processBlock st (some raw)).stats.BlockCount = st.stats.BlockCount + 1 := rfl

theorem foldl_processBlock_BlockCount :
    ∀ (evts : List (Option RawBlock)) (st : MonState),
      (evts.foldl processBlock st).stats.BlockCount
        = st.stats.BlockCount + (evts.filterMap id).length
  | [], st => by simp
  | none :: rest, st => by
    rw [List.foldl_cons]
    show (rest.foldl processBlock st).stats.BlockCount = _
    rw [foldl_processBlock_BlockCount rest st]
    simp
  | some raw :: rest, st => by
    rw [List.foldl_cons, foldl_processBlock_BlockCount rest _,
      processBlock_some_BlockCount]
    simp [List.filterMap_cons]
    omega

theorem foldl_processNewHeader_BlockCount :
    ∀ (evts : List ((Nat × Nat) × Option RawBlock)) (s : BlockStats),
      (evts.foldl processNewHeader s).BlockCount = s.BlockCount + evts.length
  | [], s => by simp
  | ev :: rest, s => by
    rw [List.foldl_cons, foldl_processNewHeader_BlockCount rest]
    have hev : (processNewHeader s ev).BlockCount = s.BlockCount + 1 := by
      rcases ev with ⟨hd, fo⟩
      cases fo <;> rfl
    rw [hev]
    simp
    omega

/-- Claim C1 counterexample: in the basic subscribe variant
(`processNewHeader`, block_subscribe.go), a session consisting of one
notification whose full-block fetch fails ends with `BlockCount = 1` even
though zero records were successfully folded — the counter is incremented
before the fetch. -/
theorem blockCount_counts_failed_fetch :
    ¬ ((subscribeSession 0 [(((7 : Nat), (100 : Nat)), (none : Option RawBlock))]).BlockCount
        = ([(((7 : Nat), (100 : Nat)), (none : Option RawBlock))].filterMap Prod.snd).length) := by
  decide

/-- Claim C1, amended: in the advanced monitor, `MonitorStats.BlockCount`
equals the number of successfully fetched and folded records (failed
fetches are skipped without incrementing); in the basic subscribe variant,
`BlockStats.BlockCount` instead counts every received notification,
including those whose full-block fetch fails. -/
theorem blockCount_equals_folds_variantwise (start : Int)
    (evts : List (Option RawBlock)) (sevts : List ((Nat × Nat) × Option RawBlock)) :
    (runSession start evts).stats.BlockCount = (evts.filterMap id).length
    ∧ (subscribeSession start sevts).BlockCount = sevts.length := by
  constructor
  · rw [runSession, foldl_processBlock_BlockCount]
    show 0 + _ = _
    omega
  · rw [subscribeSession, foldl_processNewHeader_BlockCount]
    show 0 + _ = _
    omega

theorem historyAdd_map {α β : Type} (g : α → β) (cap : Nat) (hist : List α) (b : α) :
    (historyAdd cap hist b).map g = historyAdd cap (hist.map g) (g b) := by
  unfold historyAdd
  by_cases hc : cap < (hist ++ [b]).length
  · rw [if_pos hc, if_pos (by simpa using hc), List.map_drop]
    simp
  · rw [if_neg hc, if_neg (by simpa using hc)]
    simp

theorem foldl_processBlock_history_numbers :
    ∀ (evts : List (Option RawBlock)) (st : MonState),
      ((evts.foldl processBlock st).history).map BlockInfo.Number
        = (evts.filterMap id).foldl (fun a raw => historyAdd 100 a raw.Number)
            (st.history.map BlockInfo.Number)
  | [], st => by simp
  | none :: rest, st => by
    rw [List.foldl_cons]
    show ((rest.foldl processBlock st).history).map BlockInfo.Number = _
    rw [foldl_processBlock_history_numbers rest st]
    simp
  | some raw :: rest, st => by
    rw [List.foldl_cons, foldl_processBlock_history_numbers rest _]
    have hh : (processBlock st (some raw)).history.map BlockInfo.Number
        = historyAdd 100 (st.history.map BlockInfo.Number) raw.Number := by
      show (addToHistory st.history (extractRecord st.stats raw)).map BlockInfo.Number = _
      rw [addToHistory, historyAdd_map]
      rfl
    rw [hh]
    simp [List.filterMap_cons]

theorem runSession_history_numbers (start : Int) (evts : List (Option RawBlock)) :
    ((runSession start evts).history).map BlockInfo.Number
      = ((evts.filterMap id).map RawBlock.Number).drop
          (((evts.filterMap id).map RawBlock.Number).length - 100) := by
  rw [runSession, foldl_processBlock_history_numbers]
  show (evts.filterMap id).foldl (fun a raw => historyAdd 100 a raw.Number) [] = _
  rw [← List.foldl_map (f := RawBlock.Number) (g := historyAdd 100)]
  exact foldl_historyAdd_eq 100 _ [] (by simp)

/-- Claim C4 counterexample: `processBlock`/`addToHistory` perform no
deduplication — processing the same block notification twice leaves two
records with block number 5 in the window and folds both into the stats
(`BlockCount = 2`), double counting. -/
theorem historyWindow_duplicate_example :
    ((runSession 0 [some (rawAt 5 10), some (rawAt 5 10)]).history).map BlockInfo.Number = [5, 5]
    ∧ ¬ (((runSession 0 [some (rawAt 5 10), some (rawAt 5 10)]).history).map BlockInfo.Number).Nodup
    ∧ (runSession 0 [some (rawAt 5 10), some (rawAt 5 10)]).stats.BlockCount = 2 :=
  ⟨by decide, by decide, by decide⟩

/-- Claim C4, amended: the monitor performs no deduplication; every
successfully fetched notification is folded, so a duplicated notification
is double counted. A sufficient condition for a duplicate-free window:
whenever the successfully fetched notifications of the session carry
pairwise-distinct block numbers, the history window contains no two
records with the same block number (sufficient only — eviction may also
clear duplicates from the bounded window). -/
theorem historyWindow_nodup_of_distinct (start : Int) (evts : List (Option RawBlock))
    (h : ((evts.filterMap id).map RawBlock.Number).Nodup) :
    (((runSession start evts).history).map BlockInfo.Number).Nodup := by
  rw [runSession_history_numbers]
  exact List.Nodup.sublist (List.drop_sublist _ _) h

/-- Witness for the amended C4 at a concrete two-block session with
distinct numbers. -/
theorem historyWindow_nodup_of_distinct_witness :
    ((([some (rawAt 1 10), some (rawAt 2 20)].filterMap id).map RawBlock.Number).Nodup)
    ∧ ((((runSession 0 [some (rawAt 1 10), some (rawAt 2 20)]).history).map
        BlockInfo.Number).Nodup) :=
  ⟨by decide, historyWindow_nodup_of_distinct 0 [some (rawAt 1 10), some (rawAt 2 20)] (by decide)⟩

/-- Claim C3 counterexample: `Stop()` has no once-guard — a second call at
a later wall-clock time re-emits the final report, and since
`generateFinalReport` reads `time.Since(StartTime)` the duplicate's content
differs from the first report's. Two calls are therefore not a no-op and
yield more than the single call's report. -/
theorem stop_twice_not_noop :
    (Stop 3610 (Stop 10 monitor0)).reports.length = 2
    ∧ (Stop 3610 (Stop 10 monitor0)).reports ≠ (Stop 10 monitor0).reports
    ∧ (Stop 3610 (Stop 10 monitor0)).reports.getLast? ≠ (Stop 10 monitor0).reports.getLast? :=
  ⟨by decide, by decide, by decide⟩

/-- Claim C3, amended: `Stop()` never panics and cancellation is
idempotent (the cancelled flag and the monitor state are unchanged by the
second call), but a second `Stop()` is not a no-op: it appends a second
final report, whose content equals the first report's exactly when the two
calls happen at the same elapsed time. -/
theorem stop_second_call_analysis (t1 t2 : Int) (m : LifecycleState) :
    (Stop t2 (Stop t1 m)).cancelled = true
    ∧ (Stop t1 m).cancelled = true
    ∧ (Stop t2 (Stop t1 m)).st = m.st
    ∧ (Stop t2 (Stop t1 m)).reports
        = m.reports ++ [generateFinalReport t1 m.st.stats, generateFinalReport t2 m.st.stats]
    ∧ (generateFinalReport t1 m.st.stats = generateFinalReport t2 m.st.stats ↔ t1 = t2) := by
  refine ⟨rfl, rfl, rfl, by simp [Stop], ?_⟩
  constructor
  · intro he
    have hd : t1 - m.st.stats.StartTime = t2 - m.st.stats.StartTime :=
      congrArg FinalReport.duration he
    omega
  · intro he
    rw [he]

/-- Claim C5: on a push-transport error, `Start` of the advanced monitor
terminates immediately with zero reconnect attempts (a compliant policy),
but `subscribeNewHeads` of block_subscribe.go respawns itself
unconditionally after every error — under sustained transport failure the
retry process stays active forever, one retry per error, with no bound. -/
theorem subscribe_retry_unbounded :
    startRun [SubEvent.err] = ProcStatus.finished 0
    ∧ subscribeRun [SubEvent.err, SubEvent.err] = ProcStatus.active 2
    ∧ (∀ n : Nat, subscribeRun (List.replicate n SubEvent.err) = ProcStatus.active n) := by
  refine ⟨rfl, rfl, ?_⟩
  have gen : ∀ (n r : Nat),
      (List.replicate n SubEvent.err).foldl subscribeStep (ProcStatus.active r)
        = ProcStatus.active (r + n) := by
    intro n
    induction n with
    | zero => intro r; simp
    | succ k ih =>
      intro r
      rw [List.replicate_succ, List.foldl_cons]
      show (List.replicate k SubEvent.err).foldl subscribeStep (ProcStatus.active (r + 1)) = _
      rw [ih (r + 1)]
      congr 1
      omega
  intro n
  have h0 := gen n 0
  rw [subscribeRun, h0]
  congr 1
  omega

/-- Claim C6 counterexample: with `lastSeen = 100`, `current = 103` the
poll loop does process blocks 101, 102, 103 in order, but there is no
maximum look-back: for every candidate bound `L`, a single tick with a gap
of `L + 1` blocks processes more than `L` blocks (the whole gap is always
processed). -/
theorem pollCatchup_unbounded :
    (pollTick 100 103).1 = [101, 102, 103]
    ∧ (∀ L : Nat, L < ((pollTick 0 (L + 1)).1).length) := by
  refine ⟨by decide, ?_⟩
  intro L
  have hp : pollTick 0 (L + 1) = (List.range' 1 (L + 1), L + 1) := by
    unfold pollTick
    rw [if_pos (Nat.succ_pos L)]
    simp
  rw [hp]
  simp [List.length_range']

/-- Claim C6, amended: each tick compares the latest block number with the
last-seen one and, when it grew, processes every missed block from
`lastSeen + 1` to `current` in strictly ascending order with no look-back
bound, then advances last-seen to current. With `lastSeen = 100`,
`current = 103`, blocks 101, 102, 103 are processed in order; the poll
example itself computes no block intervals, and folding those three blocks
into a fresh aggregator session computes intervals (12 s = 12*10^9 ns)
for exactly the last two records. -/
theorem pollTick_processes_gap_in_order (lastSeen current : Nat) (h : lastSeen < current) :
    (pollTick lastSeen current).1 = List.range' (lastSeen + 1) (current - lastSeen)
    ∧ ((pollTick lastSeen current).1).length = current - lastSeen
    ∧ (pollTick lastSeen current).2 = current
    ∧ ((pollTick lastSeen current).1).Pairwise (fun a b => a < b)
    ∧ (pollTick 100 103).1 = [101, 102, 103]
    ∧ ((runSession 0 [some (rawAt 101 1000), some (rawAt 102 1012),
          some (rawAt 103 1024)]).history).map BlockInfo.BlockTime
            = [0, 12000000000, 12000000000] := by
  have hp : pollTick lastSeen current
      = (List.range' (lastSeen + 1) (current - lastSeen), current) := by
    unfold pollTick
    exact if_pos h
  refine ⟨by rw [hp], ?_, by rw [hp], ?_, by decide, by decide⟩
  · rw [hp]
    simp [List.length_range']
  · rw [hp]
    exact List.pairwise_lt_range' _ _

/-- Witness for the amended C6 at the scenario input `lastSeen = 100`,
`current = 103`. -/
theorem pollTick_processes_gap_in_order_witness :
    (100 : Nat) < 103
    ∧ ((pollTick 100 103).1 = List.range' (100 + 1) (103 - 100)
      ∧ ((pollTick 100 103).1).length = 103 - 100
      ∧ (pollTick 100 103).2 = 103
      ∧ ((pollTick 100 103).1).Pairwise (fun a b => a < b)
      ∧ (pollTick 100 103).1 = [101, 102, 103]
      ∧ ((runSession 0 [some (rawAt 101 1000), some (rawAt 102 1012),
            some (rawAt 103 1024)]).history).map BlockInfo.BlockTime
            = [0, 12000000000, 12000000000]) :=
  ⟨by decide, pollTick_processes_gap_in_order 100 103 (by decide)⟩

/-- Claim C7: the first record of a session has `BlockTime` zero (no
previous block); after a block has been processed, the next record's
`BlockTime` is exactly the timestamp delta to the previously processed
block (in nanoseconds), which is non-negative whenever the timestamps are
non-decreasing; and `processBlock` records the processed block's time as
the new `LastBlockTime`. The `2^63` bounds keep Go's `int64(header.Time)`
conversion exact and the `±9223372036`-second bounds keep `time.Time.Sub`
away from its `Duration` saturation (both true of every real Unix
timestamp pair within ±292 years of one another). -/
theorem blockInterval_first_absent_then_delta (s0 : Int) (st : MonState) (raw : RawBlock)
    (prev : Nat) (hs : st.stats.LastBlockTime = some prev)
    (hp : prev < 2 ^ 63) (ht : raw.Time < 2 ^ 63)
    (hlo : -(9223372036 : Int) ≤ (raw.Time : Int) - (prev : Int))
    (hhi : (raw.Time : Int) - (prev : Int) ≤ 9223372036) :
    (extractRecord (NewMonitorStats s0) raw).BlockTime = 0
    ∧ (extractRecord st.stats raw).BlockTime
        = ((raw.Time : Int) - (prev : Int)) * 1000000000
    ∧ (prev ≤ raw.Time → 0 ≤ (extractRecord st.stats raw).BlockTime)
    ∧ (processBlock st (some raw)).stats.LastBlockTime = some raw.Time := by
  have hb : (extractRecord st.stats raw).BlockTime
      = timeSub (toInt64 raw.Time) (toInt64 prev) := by
    show (match st.stats.LastBlockTime with
      | none => (0 : Int)
      | some p => timeSub (toInt64 raw.Time) (toInt64 p)) = _
    rw [hs]
  have hid1 : toInt64 raw.Time = (raw.Time : Int) := by
    unfold toInt64
    rw [if_pos ht]
  have hid2 : toInt64 prev = (prev : Int) := by
    unfold toInt64
    rw [if_pos hp]
  have h2 : (extractRecord st.stats raw).BlockTime
      = ((raw.Time : Int) - (prev : Int)) * 1000000000 := by
    rw [hb, hid1, hid2]
    unfold timeSub
    rw [if_neg (by omega), if_neg (by omega)]
  refine ⟨rfl, h2, ?_, rfl⟩
  intro hle
  rw [h2]
  have : (prev : Int) ≤ (raw.Time : Int) := by exact_mod_cast hle
  omega

/-- Witness for C7: a fresh session gives interval 0; after a block at
time 50, a block at time 60 gives interval 10 s = 10^10 ns ≥ 0. -/
theorem blockInterval_first_absent_then_delta_witness :
    (stPrev.stats.LastBlockTime = some 50 ∧ (50 : Nat) < 2 ^ 63 ∧ (rawAt 7 60).Time < 2 ^ 63
      ∧ -(9223372036 : Int) ≤ ((rawAt 7 60).Time : Int) - ((50 : Nat) : Int)
      ∧ ((rawAt 7 60).Time : Int) - ((50 : Nat) : Int) ≤ 9223372036)
    ∧ ((extractRecord (NewMonitorStats 0) (rawAt 7 60)).BlockTime = 0
      ∧ (extractRecord stPrev.stats (rawAt 7 60)).BlockTime
          = (((rawAt 7 60).Time : Int) - ((50 : Nat) : Int)) * 1000000000
      ∧ ((50 : Nat) ≤ (rawAt 7 60).Time → 0 ≤ (extractRecord stPrev.stats (rawAt 7 60)).BlockTime)
      ∧ (processBlock stPrev (some (rawAt 7 60))).stats.LastBlockTime = some (rawAt 7 60).Time) :=
  ⟨⟨rfl, by decide, by decide, by decide, by decide⟩,
    blockInterval_first_absent_then_delta 0 stPrev (rawAt 7 60) 50 rfl (by decide) (by decide)
      (by decide) (by decide)⟩

theorem checkAlerts_foldl_eq (b : BlockInfo) (stats : MonitorStats) :
    ∀ (rules : List AlertRule) (out : List String),
      rules.foldl (fun o r => if r.Condition b stats then o ++ [r.Message b stats] else o) out
        = out ++ (rules.filter (fun r => r.Condition b stats)).map (fun r => r.Message b stats)
  | [], out => by simp
  | r :: rs, out => by
    rw [List.foldl_cons]
    cases hc : r.Condition b stats
    · rw [if_neg (by simp [hc]), checkAlerts_foldl_eq b stats rs out]
      simp [List.filter_cons, hc]
    · rw [if_pos (by simp [hc]), checkAlerts_foldl_eq b stats rs (out ++ [r.Message b stats])]
      simp [List.filter_cons, hc]

/-- Claim C8: `checkAlerts` walks every configured rule in list order and
emits exactly the messages of the rules whose predicate holds on the
(record, stats) pair — no short-circuiting, no state mutation (the rules
are pure functions) — and evaluation is deterministic: identical inputs
produce the identical alert list. -/
theorem checkAlerts_runs_every_rule (rules : List AlertRule) (b b' : BlockInfo)
    (s s' : MonitorStats) (hb : b = b') (hs : s = s') :
    checkAlerts rules b s
        = (rules.filter (fun r => r.Condition b s)).map (fun r => r.Message b s)
    ∧ checkAlerts rules b s = checkAlerts rules b' s' := by
  subst hb
  subst hs
  refine ⟨?_, rfl⟩
  unfold checkAlerts
  rw [checkAlerts_foldl_eq]
  simp

theorem ite_lt_eq_max (m x : Nat) : (if m < x then x else m) = max m x := by
  rcases lt_or_ge m x with h | h
  · rw [if_pos h, max_eq_right (le_of_lt h)]
  · rw [if_neg (not_lt.mpr h), max_eq_left h]

theorem ite_lt_eq_min (m x : Nat) : (if x < m then x else m) = min m x := by
  rcases lt_or_ge x m with h | h
  · rw [if_pos h, min_eq_right (le_of_lt h)]
  · rw [if_neg (not_lt.mpr h), min_eq_left h]

theorem processBlock_some_MaxTxs (st : MonState) (raw : RawBlock) :
    (processBlock st (some raw)).stats.MaxTxsPerBlock
      = max st.stats.MaxTxsPerBlock raw.Txs.length := by
  rw [← ite_lt_eq_max]
  rfl

theorem processBlock_some_MinTxs (st : MonState) (raw : RawBlock) :
    (processBlock st (some raw)).stats.MinTxsPerBlock
      = min st.stats.MinTxsPerBlock raw.Txs.length := by
  rw [← ite_lt_eq_min]
  rfl

theorem processBlock_some_MaxGas (st : MonState) (raw : RawBlock) :
    (processBlock st (some raw)).stats.MaxGasUsage
      = max st.stats.MaxGasUsage raw.GasUsed := by
  rw [← ite_lt_eq_max]
  rfl

theorem processBlock_some_MinGas (st : MonState) (raw : RawBlock) :
    (processBlock st (some raw)).stats.MinGasUsage
      = min st.stats.MinGasUsage raw.GasUsed := by
  rw [← ite_lt_eq_min]
  rfl

theorem foldl_processBlock_extremes :
    ∀ (evts : List (Option RawBlock)) (st : MonState),
      (evts.foldl processBlock st).stats.MaxTxsPerBlock
          = ((evts.filterMap id).map (fun r => r.Txs.length)).foldl max
              st.stats.MaxTxsPerBlock
      ∧ (evts.foldl processBlock st).stats.MinTxsPerBlock
          = ((evts.filterMap id).map (fun r => r.Txs.length)).foldl min
              st.stats.MinTxsPerBlock
      ∧ (evts.foldl processBlock st).stats.MaxGasUsage
          = ((evts.filterMap id).map (fun r => r.GasUsed)).foldl max st.stats.MaxGasUsage
      ∧ (evts.foldl processBlock st).stats.MinGasUsage
          = ((evts.filterMap id).map (fun r => r.GasUsed)).foldl min st.stats.MinGasUsage
  | [], st => by simp
  | none :: rest, st => foldl_processBlock_extremes rest st
  | some raw :: rest, st => by
    obtain ⟨ih1, ih2, ih3, ih4⟩ := foldl_processBlock_extremes rest (processBlock st (some raw))
    rw [List.foldl_cons, List.filterMap_cons]
    simp only [id, List.map_cons, List.foldl_cons]
    refine ⟨?_, ?_, ?_, ?_⟩
    · rw [ih1, processBlock_some_MaxTxs]
    · rw [ih2, processBlock_some_MinTxs]
    · rw [ih3, processBlock_some_MaxGas]
    · rw [ih4, processBlock_some_MinGas]

theorem le_foldl_max : ∀ (l : List Nat) (a : Nat), a ≤ l.foldl max a
  | [], a => le_refl a
  | x :: xs, a => by
    rw [List.foldl_cons]
    exact le_trans (le_max_left a x) (le_foldl_max xs _)

theorem mem_le_foldl_max : ∀ (l : List Nat) (a x : Nat), x ∈ l → x ≤ l.foldl max a
  | y :: ys, a, x, hx => by
    rw [List.foldl_cons]
    rcases List.mem_cons.mp hx with h | h
    · subst h
      exact le_trans (le_max_right a x) (le_foldl_max ys _)
    · exact mem_le_foldl_max ys _ x h

theorem foldl_max_eq_or_mem :
    ∀ (l : List Nat) (a : Nat), l.foldl max a = a ∨ l.foldl max a ∈ l
  | [], _ => Or.inl rfl
  | x :: xs, a => by
    rw [List.foldl_cons]
    rcases foldl_max_eq_or_mem xs (max a x) with h | h
    · rcases Nat.le_total x a with hle | hle
      · left
        rw [h]
        exact max_eq_left hle
      · right
        rw [h, max_eq_right hle]
        exact List.mem_cons_self x xs
    · exact Or.inr (List.mem_cons_of_mem _ h)

theorem foldl_min_le : ∀ (l : List Nat) (a : Nat), l.foldl min a ≤ a
  | [], a => le_refl a
  | x :: xs, a => by
    rw [List.foldl_cons]
    exact le_trans (foldl_min_le xs _) (min_le_left a x)

theorem foldl_min_le_mem : ∀ (l : List Nat) (a x : Nat), x ∈ l → l.foldl min a ≤ x
  | y :: ys, a, x, hx => by
    rw [List.foldl_cons]
    rcases List.mem_cons.mp hx with h | h
    · subst h
      exact le_trans (foldl_min_le ys _) (min_le_right a x)
    · exact foldl_min_le_mem ys _ x h

theorem foldl_min_eq_or_mem :
    ∀ (l : List Nat) (a : Nat), l.foldl min a = a ∨ l.foldl min a ∈ l
  | [], _ => Or.inl rfl
  | x :: xs, a => by
    rw [List.foldl_cons]
    rcases foldl_min_eq_or_mem xs (min a x) with h | h
    · rcases Nat.le_total a x with hle | hle
      · left
        rw [h]
        exact min_eq_left hle
      · right
        rw [h, min_eq_right hle]
        exact List.mem_cons_self x xs
    · exact Or.inr (List.mem_cons_of_mem _ h)

theorem max_fold_facts (counts : List Nat) (hne : counts ≠ []) :
    counts.foldl max 0 ∈ counts ∧ ∀ c ∈ counts, c ≤ counts.foldl max 0 := by
  constructor
  · rcases foldl_max_eq_or_mem counts 0 with h | h
    · rcases counts with _ | ⟨c, cs⟩
      · exact absurd rfl hne
      · have hc : c ≤ (c :: cs).foldl max 0 :=
          mem_le_foldl_max _ _ _ (List.mem_cons_self c cs)
        rw [h] at hc
        have hc0 : c = 0 := Nat.le_zero.mp hc
        rw [h, ← hc0]
        exact List.mem_cons_self c cs
    · exact h
  · intro c hc
    exact mem_le_foldl_max _ _ _ hc

theorem min_fold_facts (counts : List Nat) (M : Nat) (hne : counts ≠ [])
    (hb : ∀ c ∈ counts, c ≤ M) :
    counts.foldl min M ∈ counts ∧ ∀ c ∈ counts, counts.foldl min M ≤ c := by
  constructor
  · rcases foldl_min_eq_or_mem counts M with h | h
    · rcases counts with _ | ⟨c, cs⟩
      · exact absurd rfl hne
      · have hc : (c :: cs).foldl min M ≤ c :=
          foldl_min_le_mem _ _ _ (List.mem_cons_self c cs)
        rw [h] at hc
        have hcM : c = M := le_antisymm (hb c (List.mem_cons_self c cs)) hc
        rw [h, ← hcM]
        exact List.mem_cons_self c cs
    · exact h
  · intro c hc
    exact foldl_min_le_mem _ _ _ hc

/-- Claim C10: a fresh monitor's minima hold the initialization sentinels
(`MinTxsPerBlock = 999999`, `MinGasUsage = 2^64 - 1`); after at least one
record is folded, `MaxTxsPerBlock`/`MaxGasUsage` are exactly the maxima of
the folded records' transaction counts and gas usages, and — given every
folded transaction count is at most 999999 (gas is bounded by `uint64`
anyway) — `MinTxsPerBlock`/`MinGasUsage` are exactly the corresponding
minima, so min ≤ max holds for both pairs. -/
theorem stats_extremes_correct (start : Int) (evts : List (Option RawBlock))
    (hne : evts.filterMap id ≠ [])
    (htx : ∀ r ∈ evts.filterMap id, r.Txs.length ≤ 999999)
    (hgas : ∀ r ∈ evts.filterMap id, r.GasUsed ≤ 2 ^ 64 - 1) :
    ((NewMonitorStats start).MinTxsPerBlock = 999999
      ∧ (NewMonitorStats start).MinGasUsage = 2 ^ 64 - 1)
    ∧ ((runSession start evts).stats.MaxTxsPerBlock
          ∈ (evts.filterMap id).map (fun r => r.Txs.length)
      ∧ ∀ c ∈ (evts.filterMap id).map (fun r => r.Txs.length),
          c ≤ (runSession start evts).stats.MaxTxsPerBlock)
    ∧ ((runSession start evts).stats.MinTxsPerBlock
          ∈ (evts.filterMap id).map (fun r => r.Txs.length)
      ∧ ∀ c ∈ (evts.filterMap id).map (fun r => r.Txs.length),
          (runSession start evts).stats.MinTxsPerBlock ≤ c)
    ∧ ((runSession start evts).stats.MaxGasUsage
          ∈ (evts.filterMap id).map (fun r => r.GasUsed)
      ∧ ∀ c ∈ (evts.filterMap id).map (fun r => r.GasUsed),
          c ≤ (runSession start evts).stats.MaxGasUsage)
    ∧ ((runSession start evts).stats.MinGasUsage
          ∈ (evts.filterMap id).map (fun r => r.GasUsed)
      ∧ ∀ c ∈ (evts.filterMap id).map (fun r => r.GasUsed),
          (runSession start evts).stats.MinGasUsage ≤ c)
    ∧ (runSession start evts).stats.MinTxsPerBlock ≤ (runSession start evts).stats.MaxTxsPerBlock
    ∧ (runSession start evts).stats.MinGasUsage ≤ (runSession start evts).stats.MaxGasUsage := by
  obtain ⟨hmx, hmn, hgx, hgn⟩ := foldl_processBlock_extremes evts (initState start)
  have hcne : (evts.filterMap id).map (fun r => r.Txs.length) ≠ [] := by
    simpa using hne
  have hgne : (evts.filterMap id).map (fun r => r.GasUsed) ≠ [] := by
    simpa using hne
  have htx' : ∀ c ∈ (evts.filterMap id).map (fun r => r.Txs.length), c ≤ 999999 := by
    intro c hc
    obtain ⟨r, hr, hrc⟩ := List.mem_map.mp hc
    rw [← hrc]
    exact htx r hr
  have hgas' : ∀ c ∈ (evts.filterMap id).map (fun r => r.GasUsed), c ≤ 2 ^ 64 - 1 := by
    intro c hc
    obtain ⟨r, hr, hrc⟩ := List.mem_map.mp hc
    rw [← hrc]
    exact hgas r hr
  have hMx := max_fold_facts _ hcne
  have hMn := min_fold_facts _ 999999 hcne htx'
  have hGx := max_fold_facts _ hgne
  have hGn := min_fold_facts _ (2 ^ 64 - 1) hgne hgas'
  rw [runSession] at *
  rw [hmx, hmn, hgx, hgn]
  refine ⟨⟨rfl, rfl⟩, hMx, hMn, hGx, hGn, ?_, ?_⟩
  · obtain ⟨hmem, _⟩ := hMn
    exact hMx.2 _ hmem
  · obtain ⟨hmem, _⟩ := hGn
    exact hGx.2 _ hmem

/-- Witness for C10 at a one-block session. -/
theorem stats_extremes_correct_witness :
    (evts1.filterMap id ≠ []
      ∧ (∀ r ∈ evts1.filterMap id, r.Txs.length ≤ 999999)
      ∧ (∀ r ∈ evts1.filterMap id, r.GasUsed ≤ 2 ^ 64 - 1))
    ∧ (((NewMonitorStats 0).MinTxsPerBlock = 999999
      ∧ (NewMonitorStats 0).MinGasUsage = 2 ^ 64 - 1)
    ∧ ((runSession 0 evts1).stats.MaxTxsPerBlock
          ∈ (evts1.filterMap id).map (fun r => r.Txs.length)
      ∧ ∀ c ∈ (evts1.filterMap id).map (fun r => r.Txs.length),
          c ≤ (runSession 0 evts1).stats.MaxTxsPerBlock)
    ∧ ((runSession 0 evts1).stats.MinTxsPerBlock
          ∈ (evts1.filterMap id).map (fun r => r.Txs.length)
      ∧ ∀ c ∈ (evts1.filterMap id).map (fun r => r.Txs.length),
          (runSession 0 evts1).stats.MinTxsPerBlock ≤ c)
    ∧ ((runSession 0 evts1).stats.MaxGasUsage
          ∈ (evts1.filterMap id).map (fun r => r.GasUsed)
      ∧ ∀ c ∈ (evts1.filterMap id).map (fun r => r.GasUsed),
          c ≤ (runSession 0 evts1).stats.MaxGasUsage)
    ∧ ((runSession 0 evts1).stats.MinGasUsage
          ∈ (evts1.filterMap id).map (fun r => r.GasUsed)
      ∧ ∀ c ∈ (evts1.filterMap id).map (fun r => r.GasUsed),
          (runSession 0 evts1).stats.MinGasUsage ≤ c)
    ∧ (runSession 0 evts1).stats.MinTxsPerBlock ≤ (runSession 0 evts1).stats.MaxTxsPerBlock
    ∧ (runSession 0 evts1).stats.MinGasUsage ≤ (runSession 0 evts1).stats.MaxGasUsage) :=
  ⟨⟨by decide, by decide, by decide⟩,
    stats_extremes_correct 0 evts1 (by decide) (by decide) (by decide)⟩

/-- Witness for C8 on the source's "high transaction volume" and "empty
block" rules against an empty block: exactly the empty-block rule fires. -/
theorem checkAlerts_runs_every_rule_witness :
    (recAt 3 = recAt 3 ∧ NewMonitorStats 0 = NewMonitorStats 0)
    ∧ (checkAlerts [ruleHighTxVolume, ruleEmptyBlock] (recAt 3) (NewMonitorStats 0)
        = ([ruleHighTxVolume, ruleEmptyBlock].filter
            (fun r => r.Condition (recAt 3) (NewMonitorStats 0))).map
            (fun r => r.Message (recAt 3) (NewMonitorStats 0))
      ∧ checkAlerts [ruleHighTxVolume, ruleEmptyBlock] (recAt 3) (NewMonitorStats 0)
        = checkAlerts [ruleHighTxVolume, ruleEmptyBlock] (recAt 3) (NewMonitorStats 0)) :=
  ⟨⟨rfl, rfl⟩,
    checkAlerts_runs_every_rule [ruleHighTxVolume, ruleEmptyBlock] (recAt 3) (recAt 3)
      (NewMonitorStats 0) (NewMonitorStats 0) rfl rfl⟩

end DappMonitor
